import Mathlib

/-!
Verification of `libvirt_snapshot_backup.py`: a shallow embedding of its
data model and operations (snapshot records, rotation, snapshot creation,
disk-image resolution, the timed poller, domain power control and the
temporarily-shutdown guarded region), with theorems settling the spec's
claims about them.
-/

namespace LibvirtSnapshotBackup

/-- A snapshot record (`class Snapshot`): its name (`Snapshot.name`, line 116)
and its creation timestamp read from the snapshot's own metadata
(`Snapshot.timestamp`, lines 119-122, integer seconds). -/
structure Snapshot where
  name : String
  timestamp : Int
deriving DecidableEq

/-- The comparison key used by `snaps.sort(key=lambda snap: snap.timestamp())`
(line 42): order snapshots by creation timestamp. -/
def tsLe (a b : Snapshot) : Prop := a.timestamp ≤ b.timestamp

instance : DecidableRel tsLe := fun a b =>
  inferInstanceAs (Decidable (a.timestamp ≤ b.timestamp))

instance : IsTotal Snapshot tsLe := ⟨fun a b => Int.le_total a.timestamp b.timestamp⟩

instance : IsTrans Snapshot tsLe := ⟨fun _ _ _ hab hbc => le_trans hab hbc⟩

/-- Python's `str.startswith`: an exact, case-sensitive prefix test on the
sequence of characters. -/
def startswith (s pfx : String) : Bool := pfx.data.isPrefixOf s.data

/-- Line 39: `[snap for snap in dom.list_snapshots() if snap.name().startswith(prefix)]`. -/
def matching_snapshots (snaps : List Snapshot) (pfx : String) : List Snapshot :=
  snaps.filter (fun s => startswith s.name pfx)

/-- `rotate_snapshots` (lines 37-44), as the list of snapshots it deletes.
After the `assert count > 0` (modelled as a hypothesis of each theorem):
filter to names starting with the prefix; if at most `count` remain, delete
nothing; otherwise sort ascending by timestamp (Python's sort is stable, as
is `List.insertionSort`) and delete `snaps[:-count]`, i.e. all but the last
`count`. -/
def rotate_snapshots (snaps : List Snapshot) (pfx : String) (count : Nat) : List Snapshot :=
  if (matching_snapshots snaps pfx).length ≤ count then []
  else (List.insertionSort tsLe (matching_snapshots snaps pfx)).take
    ((matching_snapshots snaps pfx).length - count)

/-- `raise TimeoutError` (line 155). -/
inductive WaitError where
  | timeoutError
deriving DecidableEq

/-- The loop of `wait` (lines 149-156), one poll per time unit: at elapsed
time `k` the predicate is evaluated; if false and `timeout <= k` (modelled
by the fuel `r = timeout - k` reaching 0) a `TimeoutError` is raised,
otherwise the loop sleeps one interval and polls again.  Returns the elapsed
monotonic time at termination together with the outcome. -/
def waitAux (f : Nat → Bool) : Nat → Nat → Nat × Except WaitError Unit
  | k, r =>
    if f k then (k, .ok ())
    else
      match r with
      | 0 => (k, .error .timeoutError)
      | r' + 1 => waitAux f (k + 1) r'

/-- `wait(func, timeout)` (lines 149-156): poll `func` once per second from
elapsed time 0, raising `TimeoutError` once elapsed time reaches `timeout`
without `func` having returned true. -/
def wait (f : Nat → Bool) (timeout : Nat) : Nat × Except WaitError Unit :=
  waitAux f 0 timeout

lemma waitAux_of_never (f : Nat → Bool) (hf : ∀ T, f T = false) :
    ∀ r k, waitAux f k r = (k + r, .error .timeoutError) := by
  intro r
  induction r with
  | zero => intro k; simp [waitAux, hf]
  | succ r ih =>
    intro k
    rw [waitAux]
    simp only [hf]
    rw [ih (k + 1)]
    simp
    omega

lemma waitAux_error_elapsed (f : Nat → Bool) :
    ∀ r k n e, waitAux f k r = (n, .error e) → n = k + r := by
  intro r
  induction r with
  | zero =>
    intro k n e h
    rw [waitAux] at h
    by_cases hf : f k
    · simp [hf] at h
    · simp [hf] at h
      omega
  | succ r ih =>
    intro k n e h
    rw [waitAux] at h
    by_cases hf : f k
    · simp [hf] at h
    · simp [hf] at h
      have := ih (k + 1) n e h
      omega

lemma waitAux_ok_of_mem (f : Nat → Bool) :
    ∀ r k, (∃ T, k ≤ T ∧ T ≤ k + r ∧ f T = true) → (waitAux f k r).2 = .ok () := by
  intro r
  induction r with
  | zero =>
    intro k ⟨T, h1, h2, h3⟩
    have : T = k := by omega
    subst this
    simp [waitAux, h3]
  | succ r ih =>
    intro k ⟨T, h1, h2, h3⟩
    rw [waitAux]
    by_cases hf : f k
    · simp [hf]
    · simp only [hf, if_false]
      exact ih (k + 1) ⟨T, by
        constructor
        · rcases Nat.eq_or_lt_of_le h1 with h | h
          · subst h; rw [h3] at hf; simp at hf
          · omega
        · exact ⟨by omega, h3⟩⟩

/-- C4: for every predicate and positive timeout, `wait` returns successfully
if the predicate is true at some poll at elapsed time `T < timeout`; if the
predicate never becomes true it raises `TimeoutError`; and a `TimeoutError`
is only ever raised once elapsed monotonic time is at or after `timeout`,
never earlier. -/
theorem wait_timeout_boundary (f : Nat → Bool) (timeout : Nat) (_h : 0 < timeout) :
    ((∃ T, T < timeout ∧ f T = true) → (wait f timeout).2 = .ok ()) ∧
    ((∀ T, f T = false) → wait f timeout = (timeout, .error .timeoutError)) ∧
    (∀ n e, wait f timeout = (n, .error e) → timeout ≤ n) := by
  refine ⟨?_, ?_, ?_⟩
  · rintro ⟨T, hT, hfT⟩
    exact waitAux_ok_of_mem f timeout 0 ⟨T, Nat.zero_le T, by omega, hfT⟩
  · intro hf
    have := waitAux_of_never f hf timeout 0
    simpa [wait] using this
  · intro n e hn
    have := waitAux_error_elapsed f timeout 0 n e hn
    omega

/-- Witness for C4: with the predicate true from poll 1 on and timeout 3,
`wait` succeeds; with a predicate that is never true, it returns a
`TimeoutError` with elapsed time exactly 3. -/
theorem wait_timeout_boundary_witness :
    (wait (fun T => decide (1 ≤ T)) 3).2 = .ok () ∧
    wait (fun _ => false) 3 = (3, .error .timeoutError) :=
  ⟨(wait_timeout_boundary (fun T => decide (1 ≤ T)) 3 (by decide)).1
      ⟨1, by decide, by decide⟩,
    (wait_timeout_boundary (fun _ => false) 3 (by decide)).2.1 (fun _ => rfl)⟩

/-- The relevant values of libvirt's `virDomainState` enumeration, as
returned by `dom.state()` (lines 82, 86). -/
inductive VirDomainState where
  | nostate
  | running
  | blocked
  | paused
  | shutdownInProgress
  | shutoff
  | crashed
  | pmsuspended
deriving DecidableEq

/-- `Domain.is_up` (lines 81-83): the state equals `VIR_DOMAIN_RUNNING`. -/
def Domain.is_up (s : VirDomainState) : Bool := s == .running

/-- `Domain.is_down` (lines 85-87): the state equals `VIR_DOMAIN_SHUTOFF`. -/
def Domain.is_down (s : VirDomainState) : Bool := s == .shutoff

/-- Requests the embedding records as issued to the hypervisor. -/
inductive DomAction where
  | shutdownRequest
  | startRequest
deriving DecidableEq

/-- `Domain.down` (lines 89-93): if `is_up()` is false, return immediately
(no request issued); otherwise issue `dom.shutdown()` and `wait` for
`is_down()`.  The state observed at elapsed time `k` of the wait is
`trace k`; the result is the list of issued requests together with the
outcome of the wait. -/
def Domain.down (s0 : VirDomainState) (trace : Nat → VirDomainState) (timeout : Nat) :
    List DomAction × Except WaitError Unit :=
  if Domain.is_up s0 then
    ([.shutdownRequest], (wait (fun k => Domain.is_down (trace k)) timeout).2)
  else ([], .ok ())

/-- `temporarily_shutdown_domain` (lines 140-146): run `dom.down`, then the
body inside `try`, and `dom.up()` (a `startRequest`) in the `finally`.  If
`dom.down` itself raises, the `try` block is never entered and no start
request is issued; otherwise the start request is issued exactly once, on
the success path and on every error path of the body alike, before the
body's outcome propagates. -/
def temporarily_shutdown_domain {ε α : Type} (downResult : List DomAction × Except ε Unit)
    (body : List DomAction × Except ε α) : List DomAction × Except ε α :=
  match downResult with
  | (acts, .error e) => (acts, .error e)
  | (acts, .ok _) => (acts ++ body.1 ++ [.startRequest], body.2)

/-- C3: once the shutdown-guarded region has been entered (the shutdown
step completed), a restart request is issued exactly once more than the
body itself issues — in particular exactly once when the body issues none —
and this holds unconditionally: the body's outcome, success or any error,
propagates unchanged with the restart request already in the trace. -/
theorem temporarily_shutdown_unwind {ε α : Type} (downActs bodyActs : List DomAction)
    (res : Except ε α) (hbody : bodyActs.count DomAction.startRequest = 0)
    (hdown : downActs.count DomAction.startRequest = 0) :
    (temporarily_shutdown_domain (downActs, .ok ()) (bodyActs, res)).1.count
        DomAction.startRequest = 1 ∧
    (temporarily_shutdown_domain (downActs, .ok ()) (bodyActs, res)).2 = res := by
  constructor
  · simp [temporarily_shutdown_domain, List.count_append, hbody, hdown, List.count_singleton]
  · rfl

/-- Witness for C3: with the shutdown trace of a running domain and a body
that fails, the region issues exactly one restart request and propagates
the body's error. -/
theorem temporarily_shutdown_unwind_witness :
    (temporarily_shutdown_domain ([DomAction.shutdownRequest], Except.ok ())
        ([], (Except.error WaitError.timeoutError : Except WaitError Unit))).1.count
      DomAction.startRequest = 1 ∧
    (temporarily_shutdown_domain ([DomAction.shutdownRequest], Except.ok ())
        ([], (Except.error WaitError.timeoutError : Except WaitError Unit))).2 =
      Except.error WaitError.timeoutError :=
  temporarily_shutdown_unwind [DomAction.shutdownRequest] []
    (Except.error WaitError.timeoutError) (by decide) (by decide)

/-- Counterexample to C7: in the paused state — which is neither running nor
stopped (`is_down` is false) — `Domain.down` is a no-op: it issues no
shutdown request at all, where the claim says every state other than
stopped leads to a graceful shutdown request. -/
theorem down_paused_counterexample :
    Domain.is_down VirDomainState.paused = false ∧
    Domain.down VirDomainState.paused (fun _ => VirDomainState.paused) 30 =
      ([], .ok ()) := by
  constructor
  · rfl
  · rfl

/-- C7 (amended): `Domain.down` is a no-op exactly when the domain is not
running (stopped, but also paused, transitioning or unknown states); only
when the domain is running does it issue a graceful shutdown request and
poll `is_down` until the stopped state is observed, returning successfully
if that happens at some poll at elapsed time below the timeout and
surfacing `TimeoutError` if the stopped state is never observed. -/
theorem down_spec (s0 : VirDomainState) (trace : Nat → VirDomainState) (timeout : Nat)
    (_ht : 0 < timeout) :
    (Domain.is_up s0 = false → Domain.down s0 trace timeout = ([], .ok ())) ∧
    (Domain.is_up s0 = true →
      (Domain.down s0 trace timeout).1 = [DomAction.shutdownRequest] ∧
      ((∃ k, k < timeout ∧ Domain.is_down (trace k) = true) →
        (Domain.down s0 trace timeout).2 = .ok ()) ∧
      ((∀ k, Domain.is_down (trace k) = false) →
        (Domain.down s0 trace timeout).2 = .error .timeoutError)) := by
  constructor
  · intro h
    simp [Domain.down, h]
  · intro h
    refine ⟨by simp [Domain.down, h], ?_, ?_⟩
    · rintro ⟨k, hk, hdk⟩
      simp only [Domain.down, h, if_true]
      exact waitAux_ok_of_mem (fun j => Domain.is_down (trace j)) timeout 0
        ⟨k, Nat.zero_le k, by omega, hdk⟩
    · intro hk
      simp only [Domain.down, h, if_true]
      show (waitAux (fun j => Domain.is_down (trace j)) 0 timeout).2 = _
      rw [waitAux_of_never (fun j => Domain.is_down (trace j)) hk timeout 0]

/-- Witness for C7 (amended): a paused domain is left untouched; a running
domain whose state becomes shutoff at poll 2 is shut down successfully
within a timeout of 30. -/
theorem down_spec_witness :
    Domain.down VirDomainState.blocked (fun _ => VirDomainState.blocked) 30 = ([], .ok ()) ∧
    (Domain.down VirDomainState.running
      (fun k => if k == 2 then VirDomainState.shutoff else VirDomainState.running) 30).2 =
      .ok () :=
  ⟨(down_spec VirDomainState.blocked (fun _ => VirDomainState.blocked) 30 (by decide)).1 rfl,
    ((down_spec VirDomainState.running
        (fun k => if k == 2 then VirDomainState.shutoff else VirDomainState.running) 30
        (by decide)).2 rfl).2.1 ⟨2, by decide, by decide⟩⟩

/-- One `<disk>` element of the domain's `<devices>` configuration: its
`type` and `device` attributes and, when present, the `file` attribute of
its `<source>` child. -/
structure Disk where
  diskType : String
  device : String
  sourceFile : Option String
deriving DecidableEq

/-- The errors `Domain.disk_image_path` can raise: `AssertionError` from
`assert len(disks) > 0` (line 75), `NotImplementedError` from line 77, and
the attribute/key error from `src.attrib["file"]` when the single matching
disk has no source file (line 79). -/
inductive DiskPathError where
  | assertionError
  | notImplementedError
  | attributeError
deriving DecidableEq

/-- `Domain.disk_image_path` (lines 73-79): select the disks matching
`./devices/disk[@type='file'][@device='disk']`; assert at least one,
raise `NotImplementedError` on more than one, else return the single
disk's source file path. -/
def Domain.disk_image_path (disks : List Disk) : Except DiskPathError String :=
  match disks.filter (fun d => d.diskType == "file" && d.device == "disk") with
  | [] => .error .assertionError
  | [d] =>
    match d.sourceFile with
    | some f => .ok f
    | none => .error .attributeError
  | _ :: _ :: _ => .error .notImplementedError

/-- `backup_disk_image` (lines 30-34): if no destination is configured,
return immediately; otherwise resolve the disk image path and copy it to
the destination (the copy is recorded as the source/destination pair). -/
def backup_disk_image (disks : List Disk) (dst : Option String) :
    Except DiskPathError (Option (String × String)) :=
  match dst with
  | none => .ok none
  | some d => (Domain.disk_image_path disks).map (fun src => some (src, d))

/-- C5: with exactly one file-backed primary disk the resolution returns
that disk's source file path; with zero matching disks it fails with the
assertion (invalid-configuration) error; with two or more it fails with the
distinct `NotImplementedError` rather than picking one. -/
theorem disk_image_path_spec (disks : List Disk) :
    (disks.filter (fun d => d.diskType == "file" && d.device == "disk") = [] →
      Domain.disk_image_path disks = .error .assertionError) ∧
    (∀ d f, disks.filter (fun d => d.diskType == "file" && d.device == "disk") = [d] →
      d.sourceFile = some f → Domain.disk_image_path disks = .ok f) ∧
    (2 ≤ (disks.filter (fun d => d.diskType == "file" && d.device == "disk")).length →
      Domain.disk_image_path disks = .error .notImplementedError) ∧
    DiskPathError.assertionError ≠ DiskPathError.notImplementedError := by
  refine ⟨?_, ?_, ?_, by decide⟩
  · intro h
    simp [Domain.disk_image_path, h]
  · intro d f h hf
    simp [Domain.disk_image_path, h, hf]
  · intro h
    unfold Domain.disk_image_path
    match hm : disks.filter (fun d => d.diskType == "file" && d.device == "disk") with
    | [] => rw [hm] at h; simp at h
    | [d] => rw [hm] at h; simp at h
    | _ :: _ :: _ => rw [hm]

/-- Witness for C5: the spec's example — one file-backed primary disk with
source `/data/vm1.img` resolves to `/data/vm1.img`; an empty configuration
is an assertion error; two file-backed disks are `NotImplementedError`. -/
theorem disk_image_path_spec_witness :
    Domain.disk_image_path [⟨"file", "disk", some "/data/vm1.img"⟩] = .ok "/data/vm1.img" ∧
    Domain.disk_image_path [] = .error .assertionError ∧
    Domain.disk_image_path
      [⟨"file", "disk", some "/a.img"⟩, ⟨"file", "disk", some "/b.img"⟩] =
      .error .notImplementedError :=
  ⟨(disk_image_path_spec [⟨"file", "disk", some "/data/vm1.img"⟩]).2.1
      ⟨"file", "disk", some "/data/vm1.img"⟩ "/data/vm1.img" (by decide) rfl,
    (disk_image_path_spec []).1 rfl,
    (disk_image_path_spec
      [⟨"file", "disk", some "/a.img"⟩, ⟨"file", "disk", some "/b.img"⟩]).2.2.1
      (by decide)⟩

/-- C10: with no backup destination configured, `backup_disk_image` returns
immediately without resolving the disk image path: for every disk
configuration — including those with zero or several file-backed primary
disks, on which resolution would fail — it succeeds and performs no copy. -/
theorem backup_disk_image_none (disks : List Disk) :
    backup_disk_image disks none = .ok none :=
  rfl

/-- libvirt's `VIR_DOMAIN_SNAPSHOT_CREATE_ATOMIC` flag (bit 7). -/
def VIR_DOMAIN_SNAPSHOT_CREATE_ATOMIC : Nat := 128

/-- The snapshot-creation call handed to `snapshotCreateXML` (line 105):
the snapshot-description document and the flags word. -/
structure SnapshotCreateCall where
  desc : String
  flags : Nat
deriving DecidableEq

/-- `Domain.create_snapshot` (lines 98-105): embed the name in the `name`
element of the description document (preserving the f-string's whitespace)
and set the atomicity flag when requested. -/
def Domain.create_snapshot (name : String) (atomic : Bool) : SnapshotCreateCall :=
  ⟨"<domainsnapshot>\n            <name>" ++ name ++ "</name>\n        </domainsnapshot>",
    if atomic then Nat.lor 0 VIR_DOMAIN_SNAPSHOT_CREATE_ATOMIC else 0⟩

/-- Line 26: `name = f"{name}_{int(time.time())}"` — the prefix, an
underscore, then the current Unix time in seconds. -/
def create_snapshot_name (pfx : String) (t : Nat) : String :=
  pfx ++ "_" ++ toString t

/-- `create_snapshot` (lines 25-27): build the timestamped name and request
atomic snapshot creation, at current Unix time `t`. -/
def create_snapshot (pfx : String) (t : Nat) : SnapshotCreateCall :=
  Domain.create_snapshot (create_snapshot_name pfx t) true

/-- Counterexample to C6: the name sent for prefix `"bak"` at Unix time 100
is `"bak_100"`, not the bare concatenation `"bak100"`: the code inserts an
underscore between the prefix and the timestamp. -/
theorem create_snapshot_name_counterexample :
    create_snapshot_name "bak" 100 = "bak_100" ∧
    create_snapshot_name "bak" 100 ≠ "bak" ++ toString 100 := by
  constructor
  · rfl
  · decide

/-- C6 (amended): for every prefix and current Unix time, the name passed to
the hypervisor's snapshot-creation call is the prefix, an underscore, then
the Unix time in seconds, embedded as the `name` element of the
snapshot-description document, and the call carries exactly the atomicity
flag (bit 7 set). -/
theorem create_snapshot_call (pfx : String) (t : Nat) :
    create_snapshot pfx t =
      ⟨"<domainsnapshot>\n            <name>" ++ (pfx ++ "_" ++ toString t) ++
          "</name>\n        </domainsnapshot>",
        VIR_DOMAIN_SNAPSHOT_CREATE_ATOMIC⟩ ∧
    Nat.testBit (create_snapshot pfx t).flags 7 = true := by
  constructor
  · rfl
  · have hf : (create_snapshot pfx t).flags = VIR_DOMAIN_SNAPSHOT_CREATE_ATOMIC := rfl
    rw [hf]
    decide

lemma rotate_eq_nil_of_le (snaps : List Snapshot) (pfx : String) (count : Nat)
    (h : (matching_snapshots snaps pfx).length ≤ count) :
    rotate_snapshots snaps pfx count = [] := by
  unfold rotate_snapshots
  rw [if_pos h]

lemma mem_matching_of_mem_rotate (snaps : List Snapshot) (pfx : String) (count : Nat)
    (x : Snapshot) (hx : x ∈ rotate_snapshots snaps pfx count) :
    x ∈ matching_snapshots snaps pfx := by
  unfold rotate_snapshots at hx
  by_cases hlen : (matching_snapshots snaps pfx).length ≤ count
  · rw [if_pos hlen] at hx
    simp at hx
  · rw [if_neg hlen] at hx
    exact (List.perm_insertionSort tsLe _).mem_iff.mp (List.mem_of_mem_take hx)

lemma countP_ge_of_mem_take_sorted (ms S : List Snapshot) (m : Nat)
    (hperm : List.Perm S ms) (hsort : S.Pairwise tsLe) (x : Snapshot)
    (hx : x ∈ S.take m) :
    (ms.length - m) + 1 ≤ ms.countP (fun t => decide (x.timestamp ≤ t.timestamp)) := by
  have hsplit : S.take m ++ S.drop m = S := List.take_append_drop m S
  have hpair : (S.take m ++ S.drop m).Pairwise tsLe := by rw [hsplit]; exact hsort
  have hcross := (List.pairwise_append.mp hpair).2.2
  have h1 : S.countP (fun t => decide (x.timestamp ≤ t.timestamp)) =
      (S.take m).countP (fun t => decide (x.timestamp ≤ t.timestamp)) +
      (S.drop m).countP (fun t => decide (x.timestamp ≤ t.timestamp)) := by
    conv_lhs => rw [← hsplit]
    exact List.countP_append _ _ _
  have h2 : 0 < (S.take m).countP (fun t => decide (x.timestamp ≤ t.timestamp)) :=
    List.countP_pos_iff.mpr ⟨x, hx, by simp⟩
  have h3 : (S.drop m).countP (fun t => decide (x.timestamp ≤ t.timestamp)) =
      (S.drop m).length :=
    List.countP_eq_length.mpr (fun b hb => by
      simpa using (hcross x hx b hb : tsLe x b))
  have h4 : (S.drop m).length = S.length - m := List.length_drop m S
  have h5 : ms.countP (fun t => decide (x.timestamp ≤ t.timestamp)) =
      S.countP (fun t => decide (x.timestamp ≤ t.timestamp)) :=
    (hperm.countP_eq _).symm
  have h6 : S.length = ms.length := hperm.length_eq
  omega

lemma countP_ge_of_mem_rotate (snaps : List Snapshot) (pfx : String) (count : Nat)
    (x : Snapshot) (hx : x ∈ rotate_snapshots snaps pfx count) :
    count + 1 ≤ (matching_snapshots snaps pfx).countP
      (fun t => decide (x.timestamp ≤ t.timestamp)) := by
  unfold rotate_snapshots at hx
  by_cases hlen : (matching_snapshots snaps pfx).length ≤ count
  · rw [if_pos hlen] at hx
    simp at hx
  · rw [if_neg hlen] at hx
    have := countP_ge_of_mem_take_sorted (matching_snapshots snaps pfx)
      (List.insertionSort tsLe (matching_snapshots snaps pfx))
      ((matching_snapshots snaps pfx).length - count)
      (List.perm_insertionSort tsLe _)
      (List.sorted_insertionSort tsLe _) x hx
    omega

/-- Counterexample to C1: the hypervisor lists the run's new snapshot
(`p_100`, named from prefix `p` at Unix time 100) before a pre-existing
snapshot whose metadata timestamp ties it at 100.  The new snapshot's
timestamp is at least as large as every pre-existing one and the retention
count is 1, yet the stable sort leaves the new snapshot first and rotation
selects it for deletion. -/
theorem rotate_deletes_new_on_tie :
    create_snapshot_name "p" 100 = "p_100" ∧
    ((100 : Int) ≥ (⟨"p_99", 100⟩ : Snapshot).timestamp) ∧
    (1 : Nat) ≥ 1 ∧
    (⟨"p_100", 100⟩ : Snapshot) ∈
      rotate_snapshots [⟨"p_100", 100⟩, ⟨"p_99", 100⟩] "p" 1 := by
  refine ⟨rfl, by decide, by decide, by decide⟩

/-- C1 (amended): if the run's snapshot occurs once in the snapshot list
and its creation timestamp is strictly larger than that of every other
prefix-matching snapshot, then with retention count ≥ 1 rotation never
selects it for deletion. -/
theorem rotate_never_deletes_current (snaps : List Snapshot) (s : Snapshot) (pfx : String)
    (count : Nat) (hc : 0 < count) (honce : snaps.count s = 1)
    (hmax : ∀ t ∈ snaps, t ≠ s → startswith t.name pfx = true → t.timestamp < s.timestamp) :
    s ∉ rotate_snapshots snaps pfx count := by
  intro hx
  have hL := countP_ge_of_mem_rotate snaps pfx count s hx
  have hmono : (matching_snapshots snaps pfx).countP
      (fun t => decide (s.timestamp ≤ t.timestamp)) ≤
      (matching_snapshots snaps pfx).countP (· == s) := by
    apply List.countP_mono_left
    intro a ha hps
    unfold matching_snapshots at ha
    obtain ⟨hmem, hsw⟩ := List.mem_filter.mp ha
    by_cases he : a = s
    · simp [he]
    · have hlt := hmax a hmem he hsw
      simp only [decide_eq_true_eq] at hps
      omega
  have hcount : (matching_snapshots snaps pfx).countP (· == s) ≤ snaps.count s := by
    have h1 : (matching_snapshots snaps pfx).countP (· == s) =
        (matching_snapshots snaps pfx).count s := (List.count_eq_countP _ _).symm
    rw [h1]
    exact (List.filter_sublist snaps).count_le s
  omega

/-- Witness for C1 (amended): the new snapshot `bak_200` with timestamp 200,
strictly newer than the lone pre-existing `bak_100`, survives rotation
with retention count 1. -/
theorem rotate_never_deletes_current_witness :
    (⟨"bak_200", 200⟩ : Snapshot) ∉
      rotate_snapshots [⟨"bak_100", 100⟩, ⟨"bak_200", 200⟩] "bak" 1 :=
  rotate_never_deletes_current [⟨"bak_100", 100⟩, ⟨"bak_200", 200⟩] ⟨"bak_200", 200⟩
    "bak" 1 (by decide) (by decide)
    (by decide)

/-- C2: with pairwise-distinct timestamps and positive retention count,
rotation selects exactly `n - count` snapshots (truncated at 0) out of the
`n` prefix-matching ones, all of them prefix-matching, each strictly older
than every prefix-matching snapshot it keeps — hence never one of the
`count` most recent — and selects nothing when `n ≤ count`. -/
theorem rotate_correct (snaps : List Snapshot) (pfx : String) (count : Nat)
    (_hc : 0 < count)
    (hdist : snaps.Pairwise (fun a b => a.timestamp ≠ b.timestamp)) :
    (rotate_snapshots snaps pfx count).length =
      (matching_snapshots snaps pfx).length - count ∧
    (∀ x ∈ rotate_snapshots snaps pfx count, x ∈ matching_snapshots snaps pfx) ∧
    (∀ x ∈ rotate_snapshots snaps pfx count, ∀ y ∈ matching_snapshots snaps pfx,
      y ∉ rotate_snapshots snaps pfx count → x.timestamp < y.timestamp) ∧
    ((matching_snapshots snaps pfx).length ≤ count →
      rotate_snapshots snaps pfx count = []) := by
  have hdistm : (matching_snapshots snaps pfx).Pairwise
      (fun a b => a.timestamp ≠ b.timestamp) :=
    hdist.sublist (List.filter_sublist snaps)
  by_cases hlen : (matching_snapshots snaps pfx).length ≤ count
  · have hnil : rotate_snapshots snaps pfx count = [] := by
      unfold rotate_snapshots
      rw [if_pos hlen]
    refine ⟨?_, ?_, ?_, fun _ => hnil⟩
    · rw [hnil]
      simp
      omega
    · intro x hx
      rw [hnil] at hx
      simp at hx
    · intro x hx
      rw [hnil] at hx
      simp at hx
  · have hrot : rotate_snapshots snaps pfx count =
        (List.insertionSort tsLe (matching_snapshots snaps pfx)).take
          ((matching_snapshots snaps pfx).length - count) := by
      unfold rotate_snapshots
      rw [if_neg hlen]
    have hperm := List.perm_insertionSort tsLe (matching_snapshots snaps pfx)
    have hsort : (List.insertionSort tsLe (matching_snapshots snaps pfx)).Pairwise tsLe :=
      List.sorted_insertionSort tsLe (matching_snapshots snaps pfx)
    have hsplit := List.take_append_drop ((matching_snapshots snaps pfx).length - count)
      (List.insertionSort tsLe (matching_snapshots snaps pfx))
    refine ⟨?_, ?_, ?_, fun h => absurd h hlen⟩
    · rw [hrot, List.length_take_of_le (by rw [hperm.length_eq]; omega)]
    · intro x hx
      rw [hrot] at hx
      exact hperm.mem_iff.mp (List.mem_of_mem_take hx)
    · intro x hx y hy hyn
      rw [hrot] at hx hyn
      have hyS : y ∈ List.insertionSort tsLe (matching_snapshots snaps pfx) :=
        hperm.mem_iff.mpr hy
      have hyd : y ∈ (List.insertionSort tsLe (matching_snapshots snaps pfx)).drop
          ((matching_snapshots snaps pfx).length - count) := by
        rcases List.mem_append.mp (by rw [hsplit]; exact hyS) with h | h
        · exact absurd h hyn
        · exact h
      have hpair : ((List.insertionSort tsLe (matching_snapshots snaps pfx)).take
          ((matching_snapshots snaps pfx).length - count) ++
          (List.insertionSort tsLe (matching_snapshots snaps pfx)).drop
          ((matching_snapshots snaps pfx).length - count)).Pairwise tsLe := by
        rw [hsplit]
        exact hsort
      have hle : tsLe x y := (List.pairwise_append.mp hpair).2.2 x hx y hyd
      have hdS : (List.insertionSort tsLe (matching_snapshots snaps pfx)).Pairwise
          (fun a b => a.timestamp ≠ b.timestamp) :=
        (hperm.pairwise_iff (fun hab => Ne.symm hab)).mpr hdistm
      have hpairne : ((List.insertionSort tsLe (matching_snapshots snaps pfx)).take
          ((matching_snapshots snaps pfx).length - count) ++
          (List.insertionSort tsLe (matching_snapshots snaps pfx)).drop
          ((matching_snapshots snaps pfx).length - count)).Pairwise
          (fun a b => a.timestamp ≠ b.timestamp) := by
        rw [hsplit]
        exact hdS
      have hne : x.timestamp ≠ y.timestamp :=
        (List.pairwise_append.mp hpairne).2.2 x hx y hyd
      have hxy : x.timestamp ≤ y.timestamp := hle
      omega

/-- Witness for C2: the spec's example — snapshots `bak_100`, `bak_200`,
`bak_300`, `other_50` with retention count 2 — has exactly
`3 - 2 = 1` snapshot selected for deletion. -/
theorem rotate_correct_witness :
    (rotate_snapshots
      [⟨"bak_100", 100⟩, ⟨"bak_200", 200⟩, ⟨"bak_300", 300⟩, ⟨"other_50", 50⟩]
      "bak" 2).length =
    (matching_snapshots
      [⟨"bak_100", 100⟩, ⟨"bak_200", 200⟩, ⟨"bak_300", 300⟩, ⟨"other_50", 50⟩]
      "bak").length - 2 :=
  (rotate_correct
    [⟨"bak_100", 100⟩, ⟨"bak_200", 200⟩, ⟨"bak_300", 300⟩, ⟨"other_50", 50⟩]
    "bak" 2 (by decide) (by decide)).1

/-- C8: a snapshot whose name does not start with the prefix
(case-sensitive) is never selected for deletion by rotation, whatever its
timestamp and however many snapshots exist. -/
theorem rotate_isolation (snaps : List Snapshot) (pfx : String) (count : Nat)
    (x : Snapshot) (_hc : 0 < count) (hx : startswith x.name pfx = false) :
    x ∉ rotate_snapshots snaps pfx count := by
  intro hmem
  have hms := mem_matching_of_mem_rotate snaps pfx count x hmem
  unfold matching_snapshots at hms
  have hsw := (List.mem_filter.mp hms).2
  rw [hx] at hsw
  exact Bool.false_ne_true hsw

/-- Witness for C8: `other_50` does not match prefix `bak` and is not
selected even though it is the oldest snapshot and rotation does delete
one `bak` snapshot. -/
theorem rotate_isolation_witness :
    (⟨"other_50", 50⟩ : Snapshot) ∉
      rotate_snapshots [⟨"bak_100", 100⟩, ⟨"bak_200", 200⟩, ⟨"other_50", 50⟩] "bak" 1 :=
  rotate_isolation [⟨"bak_100", 100⟩, ⟨"bak_200", 200⟩, ⟨"other_50", 50⟩] "bak" 1
    ⟨"other_50", 50⟩ (by decide) (by decide)

/-- C9: rotation is idempotent — deleting the selected snapshots and
rotating again with the same prefix and retention count selects nothing. -/
theorem rotate_idempotent (snaps : List Snapshot) (pfx : String) (count : Nat)
    (_hc : 0 < count) :
    rotate_snapshots
      (snaps.filter (fun s => decide (s ∉ rotate_snapshots snaps pfx count)))
      pfx count = [] := by
  suffices h : (matching_snapshots
      (snaps.filter (fun s => decide (s ∉ rotate_snapshots snaps pfx count))) pfx).length ≤
      count by
    exact rotate_eq_nil_of_le _ _ _ h
  have hcomm : matching_snapshots
      (snaps.filter (fun s => decide (s ∉ rotate_snapshots snaps pfx count))) pfx =
      (matching_snapshots snaps pfx).filter
        (fun s => decide (s ∉ rotate_snapshots snaps pfx count)) := by
    unfold matching_snapshots
    rw [@List.filter_filter _ (fun s => startswith s.name pfx)
      (fun s => decide (s ∉ rotate_snapshots snaps pfx count)) snaps]
    rw [@List.filter_filter _ (fun s => decide (s ∉ rotate_snapshots snaps pfx count))
      (fun s => startswith s.name pfx) snaps]
    congr 1
    funext a
    exact Bool.and_comm _ _
  rw [hcomm]
  by_cases hlen : (matching_snapshots snaps pfx).length ≤ count
  · exact le_trans (List.length_filter_le _ _) hlen
  · have hrot : rotate_snapshots snaps pfx count =
        (List.insertionSort tsLe (matching_snapshots snaps pfx)).take
          ((matching_snapshots snaps pfx).length - count) := by
      unfold rotate_snapshots
      rw [if_neg hlen]
    have hperm := List.perm_insertionSort tsLe (matching_snapshots snaps pfx)
    have hfperm : List.Perm
        ((matching_snapshots snaps pfx).filter
          (fun s => decide (s ∉ rotate_snapshots snaps pfx count)))
        ((List.insertionSort tsLe (matching_snapshots snaps pfx)).filter
          (fun s => decide (s ∉ rotate_snapshots snaps pfx count))) :=
      (hperm.filter _).symm
    rw [hfperm.length_eq]
    have hsplit := List.take_append_drop ((matching_snapshots snaps pfx).length - count)
      (List.insertionSort tsLe (matching_snapshots snaps pfx))
    conv_lhs => rw [← hsplit]
    rw [List.filter_append]
    have hqt : ((List.insertionSort tsLe (matching_snapshots snaps pfx)).take
        ((matching_snapshots snaps pfx).length - count)).filter
        (fun s => decide (s ∉ rotate_snapshots snaps pfx count)) = [] := by
      apply List.filter_eq_nil_iff.mpr
      intro a ha
      simp only [decide_eq_true_eq, not_not, Decidable.not_not]
      rw [hrot]
      exact ha
    rw [hqt, List.nil_append]
    refine le_trans (List.length_filter_le _ _) ?_
    rw [List.length_drop, hperm.length_eq]
    omega

/-- Witness for C9: deleting `bak_100` (the snapshot rotation selects from
`bak_100`, `bak_200`, `bak_300` with retention count 2) and rotating the
remainder again selects nothing. -/
theorem rotate_idempotent_witness :
    rotate_snapshots
      ([⟨"bak_100", 100⟩, ⟨"bak_200", 200⟩, ⟨"bak_300", 300⟩].filter
        (fun s => decide (s ∉ rotate_snapshots
          [⟨"bak_100", 100⟩, ⟨"bak_200", 200⟩, ⟨"bak_300", 300⟩] "bak" 2)))
      "bak" 2 = [] :=
  rotate_idempotent [⟨"bak_100", 100⟩, ⟨"bak_200", 200⟩, ⟨"bak_300", 300⟩] "bak" 2
    (by decide)

end LibvirtSnapshotBackup
